import Mathlib

/-!
# Verification of PFSExtractor (`pfsextractor.cpp`)

A shallow embedding of the core of `pfs_extract` from `src/pfsextractor.cpp`
(Dell PFS firmware container extractor), together with theorems settling the
frozen claims about its natural-language specification.

Modelling conventions:
* the input file is a `List Nat` of bytes; every read goes through `getByte`,
  which truncates to 8 bits and (like the source's unchecked pointer reads)
  yields 0 for positions outside the buffer;
* multi-byte fields are little-endian, matching the source's direct structure
  overlay on x86;
* `write_file` calls are recorded as `(name, bytes)` pairs in program order;
  the write status returned by the output sink is modelled by a `Sink` oracle,
  and a failed write is recorded in `ioErrors` (the source merely prints a
  message and discards the status);
* the `printf` diagnostics that the design spec classifies as warnings
  (footer magic mismatch, footer/header data-size mismatch, unknown version
  tag) are recorded in `warnings` in program order;
* the source's `uint8_t` return value is mapped to `Option FormatError`
  (`none` = return 0); the spec's error taxonomy names the distinct failure
  `printf` sites of the source.  The constructors `Truncated` and `TooDeep`
  come from the spec's taxonomy; whether the code can produce them is exactly
  what some claims ask.
* recursion is bounded by an explicit fuel argument, consumed once per walk
  iteration and once per (possibly recursive) `pfs_extract` activation; the
  top-level wrapper supplies a fuel that vastly exceeds what any input of the
  given length can consume, keeping every definition kernel-computable.
-/

set_option maxRecDepth 100000
set_option maxHeartbeats 1000000

namespace PFS

/-- One byte of the input buffer: out-of-range positions read as 0 (the
source performs an unchecked pointer read there), and values are truncated
to 8 bits. -/
def getByte (buf : List Nat) (i : Nat) : Nat := (buf.getD i 0) % 256

/-- Little-endian read of `n` bytes starting at `off`
(the source overlays packed structs on the raw buffer on a little-endian
machine). -/
def readLE (buf : List Nat) (off : Nat) : Nat → Nat
  | 0 => 0
  | n + 1 => getByte buf off + 256 * readLE buf (off + 1) n

/-- `uint16_t` field read. -/
def readU16 (buf : List Nat) (off : Nat) : Nat := readLE buf off 2

/-- `uint32_t` field read. -/
def readU32 (buf : List Nat) (off : Nat) : Nat := readLE buf off 4

/-- `uint64_t` field read. -/
def readU64 (buf : List Nat) (off : Nat) : Nat := readLE buf off 8

/-- The `n` bytes starting at `off`, as copied by `write_file` /
`std::vector(first, last)` in the source. -/
def readBytes (buf : List Nat) (off n : Nat) : List Nat :=
  (List.range n).map fun i => getByte buf (off + i)

/-- The 8 bytes of the ASCII literal `"PFS.HDR."`. -/
def pfsHdrSignatureBytes : List Nat := [80, 70, 83, 46, 72, 68, 82, 46]

/-- The 8 bytes of the ASCII literal `"PFS.FTR."`. -/
def pfsFtrSignatureBytes : List Nat := [80, 70, 83, 46, 70, 84, 82, 46]

/-- `PFS_HEADER_SIGNATURE`: the `uint64_t` overlay of `"PFS.HDR."`. -/
def pfsHdrSignature : Nat := readLE pfsHdrSignatureBytes 0 8

/-- `PFS_FOOTER_SIGNATURE`: the `uint64_t` overlay of `"PFS.FTR."`. -/
def pfsFtrSignature : Nat := readLE pfsFtrSignatureBytes 0 8

/-! ## Version component rendering (`sprintf "%X."` / `"%d."`) -/

/-- One digit character, with uppercase letters for 10..15 (as `%X`). -/
def digitCharUpper (d : Nat) : Char :=
  if d < 10 then Char.ofNat (48 + d) else Char.ofNat (55 + d)

/-- Digits of `n` in the given base, most significant first, accumulated in
`acc`; `fuel` bounds the iteration count (any `fuel > logb n` is enough). -/
def natDigits (base : Nat) : Nat → Nat → List Char → List Char
  | 0, _, acc => acc
  | fuel + 1, n, acc =>
    if n < base then digitCharUpper n :: acc
    else natDigits base fuel (n / base) (digitCharUpper (n % base) :: acc)

/-- `sprintf "%X"`: uppercase hexadecimal rendering of a number. -/
def natToHexUpper (n : Nat) : String := ⟨natDigits 16 (n + 1) n []⟩

/-- `sprintf "%d"`: decimal rendering of a number. -/
def natToDec (n : Nat) : String := ⟨natDigits 10 (n + 1) n []⟩

/-! ## Diagnostics -/

/-- Non-fatal anomalies the source reports via `printf` (the spec's warning
taxonomy). -/
inductive Warning where
  | FooterMagicMismatch
  | DataSizeMismatch
  | UnknownVersionTag (tag value : Nat)
deriving DecidableEq

/-- The spec's structural-error taxonomy.  The source's failing `printf`
sites map to `TooSmall` (lines 149-152 and 177-180), `BadHeaderMagic`
(165-168) and `UnsupportedVersion` (171-174); `Truncated` and `TooDeep`
appear in the spec's taxonomy only. -/
inductive FormatError where
  | TooSmall
  | BadHeaderMagic
  | UnsupportedVersion
  | Truncated
  | TooDeep
deriving DecidableEq

/-! ## Version decoding (source lines 226-252) -/

/-- The version-string loop: processes the 4 `(VersionType[i], Version[i])`
components left to right; `'A'` (65) appends uppercase hex plus `'.'`,
`'N'` (78) appends decimal plus `'.'`, `' '` (32) or 0 breaks out of the
loop, anything else prints an unknown-version-tag diagnostic and continues.
Returns the accumulated string and the diagnostics in encounter order. -/
def decodeVersionAux : List (Nat × Nat) → String × List Warning
  | [] => ("", [])
  | (t, v) :: rest =>
    if t = 65 then
      let r := decodeVersionAux rest
      (natToHexUpper v ++ "." ++ r.1, r.2)
    else if t = 78 then
      let r := decodeVersionAux rest
      (natToDec v ++ "." ++ r.1, r.2)
    else if t = 32 ∨ t = 0 then ("", [])
    else
      let r := decodeVersionAux rest
      (r.1, Warning.UnknownVersionTag t v :: r.2)

/-- Source lines 246-251: an empty version string is replaced by the one
character placeholder `"."` (`version[0] = '.'`). -/
def versionOrDot (s : String) : String := if s = "" then "." else s

/-- `sprintf(filename, "section_%d_%s<suffix>", sectionNum, version)`. -/
def sectionName (num : Nat) (version suffix : String) : String :=
  "section_" ++ natToDec num ++ "_" ++ version ++ suffix

/-! ## Chunks (source lines 138-142 and 258-267) -/

/-- `PFS_CHUNK`: a subsection chunk; `operator<` compares `orderNum` only. -/
structure PFS_CHUNK where
  data : List Nat
  orderNum : Nat
deriving DecidableEq

/-- The chunk built from a subsection's data block (source lines 263-266):
order number is the `uint16_t` at offset 0x3E, the payload is the block with
its first 0x248 bytes stripped. -/
def chunkFrom (buf : List Nat) (ptr dataSize : Nat) : PFS_CHUNK :=
  { orderNum := readU16 buf (ptr + 0x3E)
    data := readBytes buf (ptr + 0x248) (dataSize - 0x248) }

/-- Insert a chunk into an already sorted chunk list, before the first
strictly greater order number. -/
def insertChunk (c : PFS_CHUNK) : List PFS_CHUNK → List PFS_CHUNK
  | [] => [c]
  | d :: rest =>
    if c.orderNum < d.orderNum then c :: d :: rest else d :: insertChunk c rest

/-- Model of `std::sort(chunks.begin(), chunks.end())` with `PFS_CHUNK`'s
`operator<` (source line 306): an insertion sort.  `std::sort` promises only
*some* permutation that is sorted with respect to the comparator; the order
of elements with equal `orderNum` is unspecified.  This function is one
conforming implementation (see `sortChunks_conforms`). -/
def sortChunks : List PFS_CHUNK → List PFS_CHUNK
  | [] => []
  | c :: rest => insertChunk c (sortChunks rest)

/-- The contract of `std::sort` with `PFS_CHUNK::operator<` (which compares
`orderNum` with `<`): the output may be any permutation of the input that is
sorted by `orderNum`.  Stability is *not* part of the contract. -/
def stdSortMayProduce (input out : List PFS_CHUNK) : Prop :=
  out.Perm input ∧ out.Pairwise fun a b => a.orderNum ≤ b.orderNum

/-! ## The extractor -/

/-- The output sink oracle: the status `write_file` reports for a given
named blob (0 = success, 1 = could not create, 2 = could not write; the
values come from source lines 117-134). -/
def Sink : Type := String → List Nat → Nat

/-- The sink on which every write succeeds. -/
def sinkOk : Sink := fun _ _ => 0

/-- The sink on which every write fails to be created. -/
def sinkFail : Sink := fun _ _ => 1

/-- The names of the writes in `ws` that the sink rejects — the
`write_file: can't ...` diagnostics of source lines 121 and 127. -/
def failures (sink : Sink) (ws : List (String × List Nat)) : List String :=
  (ws.filter fun w => sink w.1 w.2 != 0).map Prod.fst

/-- The fields of one `PFS_SECTION_HEADER` (source lines 86-97; offsets:
`VersionType` at +20, `Version` at +24, the four block sizes at +40, +44,
+48, +52; the two GUIDs, `HeaderVersion` and `Reserved` are read only for
diagnostic display and are not modelled). -/
structure SectionFields where
  comps : List (Nat × Nat)
  dataSize : Nat
  dataSigSize : Nat
  metaSize : Nat
  metaSigSize : Nat
deriving DecidableEq

/-- Read one section header at absolute offset `off`. -/
def readSection (buf : List Nat) (off : Nat) : SectionFields :=
  { comps := [(getByte buf (off + 20), readU16 buf (off + 24)),
              (getByte buf (off + 21), readU16 buf (off + 26)),
              (getByte buf (off + 22), readU16 buf (off + 28)),
              (getByte buf (off + 23), readU16 buf (off + 30))]
    dataSize := readU32 buf (off + 40)
    dataSigSize := readU32 buf (off + 44)
    metaSize := readU32 buf (off + 48)
    metaSigSize := readU32 buf (off + 52) }

/-- Everything observable about one activation of the extractor:
the mapped return value, the `write_file` calls in program order, the
warning diagnostics in program order, the names of failed writes, and (for
walk activations) the collected subsection chunks in encounter order. -/
structure PfsOut where
  ret : Option FormatError
  writes : List (String × List Nat)
  warnings : List Warning
  ioErrors : List String
  chunks : List PFS_CHUNK
deriving DecidableEq

/-- The empty observation. -/
def emptyOut : PfsOut := ⟨none, [], [], [], []⟩

/-- The observation of a failing `return 1` site: an error and nothing
else. -/
def errOut (e : FormatError) : PfsOut := ⟨some e, [], [], [], []⟩

/-- The two activation shapes of the recursive extractor: a `pfs_extract`
call (source line 146) and one state of its section-walking loop (source
lines 207-302).  `base`/`off` are absolute offsets into the one underlying
buffer, exactly like the source's pointers into the single allocation. -/
inductive PfsCall where
  | extract (base size : Nat) (filename : Option String)
  | walk (isSub : Bool) (dataEnd off num : Nat)
deriving DecidableEq

/-- The observable outcome of one walk iteration (the loop body, source
lines 207-302), given the already computed observations `nested` of the
recursive `pfs_extract` on a nested container (or `emptyOut`) and `rest` of
the remaining iterations.  In subsection mode the data block becomes a
chunk and nothing is written; in normal mode the data / data-signature /
metadata / metadata-signature blocks are written when non-empty, with the
nested container's activity sandwiched directly after the data write
(write-before-recurse, source lines 269-274). -/
def combineStep (sink : Sink) (buf : List Nat) (isSub : Bool) (off num : Nat)
    (version : String) (vwarns : List Warning) (s : SectionFields)
    (nested rest : PfsOut) : PfsOut :=
  let ptr := off + 72
  if isSub then
    { ret := none
      writes := rest.writes
      warnings := vwarns ++ rest.warnings
      ioErrors := rest.ioErrors
      chunks := (if s.dataSize ≠ 0 then [chunkFrom buf ptr s.dataSize] else [])
        ++ rest.chunks }
  else
    let dataW := if s.dataSize ≠ 0 then
      [(sectionName num version "data", readBytes buf ptr s.dataSize)] else []
    let signW := if s.dataSigSize ≠ 0 then
      [(sectionName num version "sign",
        readBytes buf (ptr + s.dataSize) s.dataSigSize)] else []
    let metaW := if s.metaSize ≠ 0 then
      [(sectionName num version "meta",
        readBytes buf (ptr + s.dataSize + s.dataSigSize) s.metaSize)] else []
    let mtsgW := if s.metaSigSize ≠ 0 then
      [(sectionName num version "mtsg",
        readBytes buf (ptr + s.dataSize + s.dataSigSize + s.metaSize)
          s.metaSigSize)] else []
    { ret := none
      writes := dataW ++ nested.writes ++ signW ++ metaW ++ mtsgW ++ rest.writes
      warnings := vwarns ++ nested.warnings ++ rest.warnings
      ioErrors := failures sink dataW ++ nested.ioErrors ++ failures sink signW
        ++ failures sink metaW ++ failures sink mtsgW ++ rest.ioErrors
      chunks := rest.chunks }

/-- The recursive core of `pfs_extract` (source lines 146-319).

`.extract base size filename` models `pfs_extract(buffer + base, size,
filename)`; `isSubsection = filename.isSome` (line 154).  The argument
checks, header checks and footer checks follow lines 149-201; the walk
starts at `base + 16` and runs while the current offset is strictly below
`dataEnd = base + 16 + DataSize` (line 207), with *no* bounds check of any
kind inside the loop.  A nested container (normal mode, data block starting
with `PFS_HEADER_SIGNATURE`, line 271) triggers a recursive extract in
subsection mode targeting `section_<num>_<version>payload` (lines 272-273);
the recursive call's status is discarded, exactly as in the source.  A
subsection activation ends by writing the concatenation of the sorted
chunks under its target name (lines 304-316).

`fuel` only bounds the recursion for Lean; one unit is consumed per
activation and per loop iteration, so any fuel above the activation count
of the source's run reproduces it exactly (the wrapper `pfs_extract`
supplies such a fuel). -/
def pfsRun (sink : Sink) (buf : List Nat) : Nat → PfsCall → PfsOut
  | 0, _ => emptyOut
  | fuel + 1, .extract base size filename =>
    if size < 32 then errOut .TooSmall
    else if readU64 buf base ≠ pfsHdrSignature then errOut .BadHeaderMagic
    else if readU32 buf (base + 8) ≠ 1 then errOut .UnsupportedVersion
    else
      let ds := readU32 buf (base + 12)
      if size < 32 + ds then errOut .TooSmall
      else
        let w1 : List Warning :=
          if readU64 buf (base + 16 + ds + 8) ≠ pfsFtrSignature then
            [.FooterMagicMismatch] else []
        let w2 : List Warning :=
          if readU32 buf (base + 16 + ds) ≠ ds then [.DataSizeMismatch] else []
        let L := pfsRun sink buf fuel
          (.walk filename.isSome (base + 16 + ds) (base + 16) 0)
        match filename with
        | some name =>
          let out := ((sortChunks L.chunks).map PFS_CHUNK.data).flatten
          { ret := none
            writes := L.writes ++ [(name, out)]
            warnings := w1 ++ w2 ++ L.warnings
            ioErrors := L.ioErrors ++ (if sink name out ≠ 0 then [name] else [])
            chunks := [] }
        | none =>
          { ret := none
            writes := L.writes
            warnings := w1 ++ w2 ++ L.warnings
            ioErrors := L.ioErrors
            chunks := [] }
  | fuel + 1, .walk isSub dataEnd off num =>
    if dataEnd ≤ off then emptyOut
    else
      let s := readSection buf off
      let dv := decodeVersionAux s.comps
      let version := versionOrDot dv.1
      let nested :=
        if isSub then emptyOut
        else if s.dataSize ≠ 0 ∧ readU64 buf (off + 72) = pfsHdrSignature then
          pfsRun sink buf fuel
            (.extract (off + 72) s.dataSize (some (sectionName num version "payload")))
        else emptyOut
      let rest := pfsRun sink buf fuel
        (.walk isSub dataEnd
          (off + 72 + s.dataSize + s.dataSigSize + s.metaSize + s.metaSigSize)
          ((num + 1) % 256))
      combineStep sink buf isSub off num version dv.2 s nested rest

/-- Fuel that no run on a buffer of this length can exhaust: each of the at
most `buf.length / 88 + 2` activations walks at most `2 ^ 32 / 72 + 1`
sections (block sizes are `uint32_t`). -/
def totalFuel (buf : List Nat) : Nat := (buf.length + 2) * 2 ^ 27

/-- `pfs_extract(buffer, bufferSize, filename)` (source line 146): the
top-level entry point.  `filename = none` is the `NULL` of the source's
`main` (normal mode); `filename = some name` is the internal subsection
mode. -/
def pfs_extract (sink : Sink) (buf : List Nat) (bufferSize : Nat)
    (filename : Option String) : PfsOut :=
  pfsRun sink buf (totalFuel buf) (.extract 0 bufferSize filename)

/-- `main`'s call `pfs_extract(buffer, filesize, NULL)` (source line 385):
the whole file in normal mode. -/
def mainExtract (sink : Sink) (buf : List Nat) : PfsOut :=
  pfs_extract sink buf buf.length none

/-! ## Concrete test inputs

Builders for synthetic PFS images, used by the witnesses and
counterexamples.  They are input constructors, not part of the embedding of
the source. -/

/-- Two bytes, little endian. -/
def le2 (n : Nat) : List Nat := [n % 256, n / 256 % 256]

/-- Four bytes, little endian. -/
def le4 (n : Nat) : List Nat :=
  [n % 256, n / 256 % 256, n / 65536 % 256, n / 16777216 % 256]

/-- A well-formed `PFS_FILE_HEADER` with `HeaderVersion = 1` and the given
`DataSize`. -/
def pfsHeaderBytes (ds : Nat) : List Nat := pfsHdrSignatureBytes ++ le4 1 ++ le4 ds

/-- A well-formed `PFS_FILE_FOOTER` with the given `DataSize` and zero
checksum. -/
def pfsFooterBytes (ds : Nat) : List Nat := le4 ds ++ le4 0 ++ pfsFtrSignatureBytes

/-- A `PFS_SECTION_HEADER` with zero GUIDs, header version 1, the given
version tags/values and the four block sizes. -/
def secHdrBytes (tags : List Nat) (vals : List Nat) (ds dss ms mss : Nat) :
    List Nat :=
  List.replicate 16 0 ++ le4 1 ++ tags ++ (vals.map le2).flatten
    ++ List.replicate 8 0 ++ le4 ds ++ le4 dss ++ le4 ms ++ le4 mss
    ++ List.replicate 16 0

/-- A 400-byte image whose declared data region is `[16, 196)`: section 0 is
well formed (one data byte `0xAA`), section 1 declares `DataSize = 100`, so
its data block `[161, 261)` extends 65 bytes past the data-region end 196
(into the footer and the trailing `0xEE` junk, all still inside the
allocation). -/
def c1buf : List Nat :=
  pfsHeaderBytes 180
    ++ secHdrBytes [32, 0, 0, 0] [0, 0, 0, 0] 1 0 0 0 ++ [0xAA]
    ++ secHdrBytes [32, 0, 0, 0] [0, 0, 0, 0] 100 0 0 0
    ++ List.replicate 35 0xBB
    ++ pfsFooterBytes 180
    ++ List.replicate 188 0xEE

/-- A 40-byte all-zero buffer except for a declared header `DataSize` of
232: too small to fit `header + data + footer`, but its header magic is
also wrong. -/
def c4buf : List Nat := List.replicate 12 0 ++ le4 232 ++ List.replicate 24 0

/-- A 40-byte buffer with a good header (version 1, `DataSize = 100`) that
is too small to fit the declared image. -/
def c4okbuf : List Nat := pfsHeaderBytes 100 ++ List.replicate 24 0

/-- A 105-byte image with one section (one data byte 65 = `'A'`) whose
footer magic reads `"PFS.XXX."` instead of `"PFS.FTR."`. -/
def c8buf : List Nat :=
  pfsHeaderBytes 73
    ++ secHdrBytes [0, 0, 0, 0] [0, 0, 0, 0] 1 0 0 0 ++ [65]
    ++ le4 73 ++ le4 0 ++ [80, 70, 83, 46, 88, 88, 88, 46]

/-- A 690-byte container with one section whose data block is a subsection
chunk: 0x248 opaque zero bytes (order number 0) followed by the payload
bytes `[65, 66]`. -/
def innerBuf : List Nat :=
  pfsHeaderBytes 658
    ++ secHdrBytes [0, 0, 0, 0] [0, 0, 0, 0] 586 0 0 0
    ++ List.replicate 584 0 ++ [65, 66]
    ++ pfsFooterBytes 658

/-- A 794-byte container with one normal section whose data block is
`innerBuf` — a nested PFS container (it begins with `"PFS.HDR."`). -/
def outerBuf : List Nat :=
  pfsHeaderBytes 762
    ++ secHdrBytes [0, 0, 0, 0] [0, 0, 0, 0] 690 0 0 0
    ++ innerBuf
    ++ pfsFooterBytes 762

/-- A section header wrapping a nested container of the given length as its
data block. -/
def chainSec (innerLen : Nat) : List Nat :=
  secHdrBytes [0, 0, 0, 0] [0, 0, 0, 0] innerLen 0 0 0

/-- `nestBuf n`: a PFS container whose single section's data block is
`nestBuf (n - 1)`, i.e. `n + 1` syntactically nested containers
(`nestBuf 0` is an empty well-formed container). -/
def nestBuf : Nat → List Nat
  | 0 => pfsHeaderBytes 0 ++ pfsFooterBytes 0
  | n + 1 =>
    let inner := nestBuf n
    pfsHeaderBytes (72 + inner.length) ++ chainSec inner.length ++ inner
      ++ pfsFooterBytes (72 + inner.length)

/-- A minimal emitting section: 72-byte header declaring one data byte
(65), all version tags 0 (so the version placeholder is `"."`). -/
def secUnit : List Nat := secHdrBytes [0, 0, 0, 0] [0, 0, 0, 0] 1 0 0 0 ++ [65]

/-- `m` copies of `secUnit` in sequence. -/
def repUnits : Nat → List Nat
  | 0 => []
  | m + 1 => secUnit ++ repUnits m

/-- A well-formed image with `m` minimal sections. -/
def repBuf (m : Nat) : List Nat :=
  pfsHeaderBytes (73 * m) ++ repUnits m ++ pfsFooterBytes (73 * m)

/-- The expected data-file names for `m` minimal sections starting at
section counter `num`: the counter is an 8-bit value, advanced modulo
256 exactly as the source's `uint8_t sectionNum`. -/
def repNames : Nat → Nat → List String
  | _, 0 => []
  | num, m + 1 => sectionName num "." "data" :: repNames ((num + 1) % 256) m

/-- The chunk list of the specification's reassembly example:
`[(2, "BB"), (0, "AA"), (1, "CC")]` in encounter order. -/
def exChunks : List PFS_CHUNK := [⟨[66, 66], 2⟩, ⟨[65, 65], 0⟩, ⟨[67, 67], 1⟩]

/-! ## Byte-level helper lemmas -/

theorem getByte_append_left (l r : List Nat) (i : Nat) (h : i < l.length) :
    getByte (l ++ r) i = getByte l i := by
  rw [getByte, getByte, List.getD_append _ _ _ _ h]

theorem getByte_append_right (l r : List Nat) (i : Nat) (h : l.length ≤ i) :
    getByte (l ++ r) i = getByte r (i - l.length) := by
  rw [getByte, getByte, List.getD_append_right _ _ _ _ h]

theorem readLE_append_left (l r : List Nat) :
    ∀ (n off : Nat), off + n ≤ l.length → readLE (l ++ r) off n = readLE l off n
  | 0, _, _ => rfl
  | n + 1, off, h => by
    rw [readLE, readLE, getByte_append_left l r off (by omega),
      readLE_append_left l r n (off + 1) (by omega)]

theorem readLE_append_right (l r : List Nat) :
    ∀ (n off : Nat), l.length ≤ off →
      readLE (l ++ r) off n = readLE r (off - l.length) n
  | 0, _, _ => rfl
  | n + 1, off, h => by
    rw [readLE, readLE, getByte_append_right l r off h,
      readLE_append_right l r n (off + 1) (by omega)]
    have : off + 1 - l.length = off - l.length + 1 := by omega
    rw [this]

theorem readLE_le4 (n : Nat) (r : List Nat) :
    readLE (le4 n ++ r) 0 4 = n % 4294967296 := by
  show n % 256 % 256 + 256 * (n / 256 % 256 % 256 + 256 * (n / 65536 % 256 % 256
    + 256 * (n / 16777216 % 256 % 256 + 256 * 0))) = n % 4294967296
  omega

theorem readBytes_one (buf : List Nat) (off : Nat) :
    readBytes buf off 1 = [getByte buf off] := by
  simp [readBytes, List.range_succ]

/-- The least byte of a multi-byte read is the byte at its offset. -/
theorem readLE_mod256 (buf : List Nat) (off n : Nat) (hn : n ≠ 0) :
    readLE buf off n % 256 = getByte buf off := by
  cases n with
  | zero => exact absurd rfl hn
  | succ n =>
    have h : getByte buf off < 256 := Nat.mod_lt _ (by omega)
    simp [readLE, Nat.add_mul_mod_self_left, Nat.mod_eq_of_lt h]

/-! ## Structural lemmas about the extractor -/

/-- The source can only return 0, or fail one of its four explicit checks:
the walk itself has no failure path. -/
theorem pfsRun_ret_cases (sink : Sink) (buf : List Nat) (fuel : Nat)
    (c : PfsCall) :
    (pfsRun sink buf fuel c).ret = none ∨
    (pfsRun sink buf fuel c).ret = some FormatError.TooSmall ∨
    (pfsRun sink buf fuel c).ret = some FormatError.BadHeaderMagic ∨
    (pfsRun sink buf fuel c).ret = some FormatError.UnsupportedVersion := by
  match fuel, c with
  | 0, _ => left; rfl
  | fuel + 1, .extract base size filename =>
    simp only [pfsRun]
    split
    · right; left; rfl
    split
    · right; right; left; rfl
    split
    · right; right; right; rfl
    split
    · right; left; rfl
    cases filename <;> simp [errOut, emptyOut]
  | fuel + 1, .walk isSub dataEnd off num =>
    simp only [pfsRun]
    split
    · left; rfl
    cases isSub <;> simp [combineStep, emptyOut]

/-- If the four fatal checks pass, `pfs_extract` returns 0, whatever the
walk does. -/
theorem extract_ret_none (sink : Sink) (buf : List Nat) (fuel base size : Nat)
    (filename : Option String)
    (h1 : ¬ size < 32) (h2 : readU64 buf base = pfsHdrSignature)
    (h3 : readU32 buf (base + 8) = 1)
    (h4 : ¬ size < 32 + readU32 buf (base + 12)) :
    (pfsRun sink buf (fuel + 1) (.extract base size filename)).ret = none := by
  simp only [pfsRun, h1, h2, h3, h4, if_false, if_neg]
  simp only [ne_eq, not_true_eq_false, if_false, if_neg (by omega : ¬ (1 : Nat) ≠ 1)]
  cases filename <;> simp

/-- A subsection-mode walk never calls the output sink and never recurses:
it only collects chunks. -/
theorem chunk_walk_writes (sink : Sink) (buf : List Nat) :
    ∀ (fuel dataEnd off num : Nat),
      (pfsRun sink buf fuel (.walk true dataEnd off num)).writes = [] ∧
      (pfsRun sink buf fuel (.walk true dataEnd off num)).ioErrors = []
  | 0, _, _, _ => ⟨rfl, rfl⟩
  | fuel + 1, dataEnd, off, num => by
    simp only [pfsRun]
    split
    · exact ⟨rfl, rfl⟩
    · simp only [combineStep, if_true]
      exact chunk_walk_writes sink buf fuel dataEnd _ _

/-! ## Sorting lemmas -/

theorem insertChunk_perm (c : PFS_CHUNK) (l : List PFS_CHUNK) :
    (insertChunk c l).Perm (c :: l) := by
  induction l with
  | nil => exact List.Perm.refl _
  | cons d rest ih =>
    rw [insertChunk]
    split
    · exact List.Perm.refl _
    · exact (ih.cons d).trans (List.Perm.swap c d rest)

theorem sortChunks_perm (l : List PFS_CHUNK) : (sortChunks l).Perm l := by
  induction l with
  | nil => exact List.Perm.refl _
  | cons c rest ih =>
    exact (insertChunk_perm c (sortChunks rest)).trans (ih.cons c)

theorem insertChunk_sorted (c : PFS_CHUNK) (l : List PFS_CHUNK)
    (h : l.Pairwise fun a b => a.orderNum ≤ b.orderNum) :
    (insertChunk c l).Pairwise fun a b => a.orderNum ≤ b.orderNum := by
  induction l with
  | nil => simp [insertChunk]
  | cons d rest ih =>
    rw [List.pairwise_cons] at h
    rw [insertChunk]
    split
    · rename_i hlt
      rw [List.pairwise_cons]
      refine ⟨?_, List.pairwise_cons.mpr h⟩
      intro e he
      rcases List.mem_cons.mp he with rfl | he
      · omega
      · exact le_trans (by omega) (h.1 e he)
    · rename_i hge
      rw [List.pairwise_cons]
      refine ⟨?_, ih h.2⟩
      intro e he
      have := (insertChunk_perm c rest).mem_iff.mp he
      rcases List.mem_cons.mp this with rfl | he2
      · omega
      · exact h.1 e he2

theorem sortChunks_sorted (l : List PFS_CHUNK) :
    (sortChunks l).Pairwise fun a b => a.orderNum ≤ b.orderNum := by
  induction l with
  | nil => simp [sortChunks]
  | cons c rest ih => exact insertChunk_sorted c (sortChunks rest) ih

/-- The embedding's sort is one conforming implementation of the
`std::sort` contract. -/
theorem sortChunks_conforms (l : List PFS_CHUNK) :
    stdSortMayProduce l (sortChunks l) :=
  ⟨sortChunks_perm l, sortChunks_sorted l⟩

/-! ## Fuel plumbing -/

theorem totalFuel_pos (buf : List Nat) : 0 < totalFuel buf := by
  have : 0 < (buf.length + 2) := by omega
  exact Nat.mul_pos this (by norm_num)

theorem totalFuel_succ (buf : List Nat) :
    totalFuel buf = (totalFuel buf - 1) + 1 :=
  (Nat.succ_pred_eq_of_pos (totalFuel_pos buf)).symm

theorem pfs_extract_succ (sink : Sink) (buf : List Nat) (size : Nat)
    (filename : Option String) :
    pfs_extract sink buf size filename
      = pfsRun sink buf ((totalFuel buf - 1) + 1) (.extract 0 size filename) := by
  rw [pfs_extract, ← totalFuel_succ]

theorem totalFuel_big (buf : List Nat) : 134217728 ≤ totalFuel buf := by
  rw [totalFuel]
  calc (134217728 : Nat) = 2 * 2 ^ 26 := by norm_num
  _ ≤ (buf.length + 2) * 2 ^ 27 :=
    Nat.mul_le_mul (by omega) (by norm_num)

/-- Exit of the section walk: once the offset has reached `dataEnd`,
nothing more happens. -/
theorem walk_exit (sink : Sink) (buf : List Nat) (fuel : Nat) (isSub : Bool)
    (dataEnd off num : Nat) (h : dataEnd ≤ off) :
    pfsRun sink buf fuel (.walk isSub dataEnd off num) = emptyOut := by
  cases fuel with
  | zero => rfl
  | succ fuel =>
    simp only [pfsRun]
    rw [if_pos h]

/-! ## Reading the synthetic headers -/

theorem readU64_pfsHeader (ds : Nat) (rest : List Nat) :
    readU64 (pfsHeaderBytes ds ++ rest) 0 = pfsHdrSignature := by
  rw [pfsHeaderBytes, readU64, List.append_assoc, List.append_assoc,
    readLE_append_left _ _ 8 0 (by decide)]
  rfl

theorem readU32_pfsHeader8 (ds : Nat) (rest : List Nat) :
    readU32 (pfsHeaderBytes ds ++ rest) 8 = 1 := by
  rw [pfsHeaderBytes, readU32, List.append_assoc, List.append_assoc,
    readLE_append_right _ _ 4 8 (by decide)]
  rw [show (8 : Nat) - pfsHdrSignatureBytes.length = 0 from by decide,
    readLE_append_left _ _ 4 0 (by decide)]
  rfl

theorem readU32_pfsHeader12 (ds : Nat) (rest : List Nat) :
    readU32 (pfsHeaderBytes ds ++ rest) 12 = ds % 4294967296 := by
  rw [pfsHeaderBytes, readU32, List.append_assoc, List.append_assoc,
    readLE_append_right _ _ 4 12 (by decide)]
  rw [show (12 : Nat) - pfsHdrSignatureBytes.length = 4 from by decide,
    readLE_append_right _ _ 4 4 (by decide)]
  rw [show (4 : Nat) - (le4 1).length = 0 from by decide]
  exact readLE_le4 ds rest

/-- An extract on a buffer that starts with a well-formed header whose
declared data fits in the claimed size returns 0. -/
theorem extract_hdr_ret_none (sink : Sink) (ds size fuel : Nat)
    (rest : List Nat) (fn : Option String) (hsz : 32 + ds ≤ size) :
    (pfsRun sink (pfsHeaderBytes ds ++ rest) (fuel + 1)
      (.extract 0 size fn)).ret = none := by
  apply extract_ret_none
  · omega
  · exact readU64_pfsHeader ds rest
  · simpa using readU32_pfsHeader8 ds rest
  · have h := readU32_pfsHeader12 ds rest
    simp only [Nat.zero_add, h]
    have : ds % 4294967296 ≤ ds := Nat.mod_le _ _
    omega

theorem pfsHeaderBytes_length (ds : Nat) : (pfsHeaderBytes ds).length = 16 :=
  rfl

theorem pfsFooterBytes_length (ds : Nat) : (pfsFooterBytes ds).length = 16 :=
  rfl

theorem chainSec_length (k : Nat) : (chainSec k).length = 72 := rfl

theorem nestBuf_length (n : Nat) : (nestBuf n).length = 32 + 104 * n := by
  induction n with
  | zero => decide
  | succ n ih =>
    show (pfsHeaderBytes _ ++ chainSec _ ++ nestBuf n
      ++ pfsFooterBytes _).length = _
    simp only [List.length_append, ih, pfsHeaderBytes_length,
      pfsFooterBytes_length, chainSec_length]
    omega

/-! ## Reading the repeated minimal sections -/

theorem secUnit_length : secUnit.length = 73 := rfl

theorem repUnits_length (m : Nat) : (repUnits m).length = 73 * m := by
  induction m with
  | zero => rfl
  | succ m ih =>
    show (secUnit ++ repUnits m).length = _
    simp only [List.length_append, ih, secUnit_length]
    omega

theorem repBuf_length (m : Nat) : (repBuf m).length = 32 + 73 * m := by
  show (pfsHeaderBytes _ ++ repUnits m ++ pfsFooterBytes _).length = _
  simp only [List.length_append, pfsHeaderBytes_length, pfsFooterBytes_length,
    repUnits_length]
  omega

theorem unitGetByte (pre tail : List Nat) (k : Nat) (h : k < 73) :
    getByte (pre ++ (secUnit ++ tail)) (pre.length + k) = getByte secUnit k := by
  rw [getByte_append_right pre _ (pre.length + k) (by omega)]
  rw [show pre.length + k - pre.length = k from by omega]
  rw [getByte_append_left secUnit tail k (by rw [secUnit_length]; omega)]

theorem unitReadLE (pre tail : List Nat) (off n : Nat) (h : off + n ≤ 73) :
    readLE (pre ++ (secUnit ++ tail)) (pre.length + off) n
      = readLE secUnit off n := by
  rw [readLE_append_right pre _ n (pre.length + off) (by omega)]
  rw [show pre.length + off - pre.length = off from by omega]
  rw [readLE_append_left secUnit tail n off (by rw [secUnit_length]; omega)]

theorem unitSection (pre tail : List Nat) :
    readSection (pre ++ (secUnit ++ tail)) pre.length
      = ⟨[(0, 0), (0, 0), (0, 0), (0, 0)], 1, 0, 0, 0⟩ := by
  simp only [readSection, readU16, readU32]
  rw [unitGetByte pre tail 20 (by omega), unitGetByte pre tail 21 (by omega),
    unitGetByte pre tail 22 (by omega), unitGetByte pre tail 23 (by omega),
    unitReadLE pre tail 24 2 (by omega), unitReadLE pre tail 26 2 (by omega),
    unitReadLE pre tail 28 2 (by omega), unitReadLE pre tail 30 2 (by omega),
    unitReadLE pre tail 40 4 (by omega), unitReadLE pre tail 44 4 (by omega),
    unitReadLE pre tail 48 4 (by omega), unitReadLE pre tail 52 4 (by omega)]
  decide

theorem unitNoMagic (pre tail : List Nat) :
    ¬ readU64 (pre ++ (secUnit ++ tail)) (pre.length + 72)
      = pfsHdrSignature := by
  intro h
  have h2 : readU64 (pre ++ (secUnit ++ tail)) (pre.length + 72) % 256
      = pfsHdrSignature % 256 := by rw [h]
  rw [readU64, readLE_mod256 _ _ 8 (by omega)] at h2
  rw [unitGetByte pre tail 72 (by omega)] at h2
  exact absurd h2 (by decide)

/-- The walk over `m` minimal sections starting at section counter `num`
emits exactly the data files named by `repNames num m`, each holding the
single byte 65: the counter advances modulo 256 through the names. -/
theorem repWalk (sink : Sink) (post : List Nat) :
    ∀ (m fuel num : Nat) (pre : List Nat), m ≤ fuel →
      (pfsRun sink (pre ++ (repUnits m ++ post)) fuel
        (.walk false (pre.length + 73 * m) pre.length num)).writes
        = (repNames num m).map fun s => (s, [65])
  | 0, fuel, num, pre, _ => by
    cases fuel with
    | zero => rfl
    | succ fuel =>
      simp only [pfsRun]
      rw [if_pos (by omega : pre.length + 73 * 0 ≤ pre.length)]
      rfl
  | m + 1, fuel, num, pre, hf => by
    cases fuel with
    | zero => exact absurd hf (by omega)
    | succ fuel =>
      have hbuf : repUnits (m + 1) ++ post = secUnit ++ (repUnits m ++ post) := by
        rw [repUnits, List.append_assoc]
      rw [hbuf]
      have hsec := unitSection pre (repUnits m ++ post)
      have hmag := unitNoMagic pre (repUnits m ++ post)
      have hver : versionOrDot (decodeVersionAux
          [((0:Nat), (0:Nat)), (0, 0), (0, 0), (0, 0)]).1 = "." := by decide
      simp only [pfsRun]
      rw [if_neg (by omega : ¬ pre.length + 73 * (m + 1) ≤ pre.length)]
      rw [hsec, hver]
      rw [if_neg (show ¬ ((1:Nat) ≠ 0
        ∧ readU64 (pre ++ (secUnit ++ (repUnits m ++ post)))
            (pre.length + 72) = pfsHdrSignature) from fun hc => hmag hc.2)]
      simp only [combineStep, Bool.false_eq_true, if_false, emptyOut]
      rw [readBytes_one, unitGetByte pre (repUnits m ++ post) 72 (by omega)]
      rw [show getByte secUnit 72 = 65 from by decide]
      simp only [ne_eq, not_true_eq_false, not_false_eq_true, if_true,
        if_false, Nat.add_zero, List.nil_append, List.append_nil,
        List.append_assoc, List.singleton_append]
      have hoff : pre.length + 72 + 1 = (pre ++ secUnit).length := by
        simp only [List.length_append, secUnit_length]
      have hend : pre.length + 73 * (m + 1) = (pre ++ secUnit).length + 73 * m := by
        simp only [List.length_append, secUnit_length]
        omega
      have hassoc : pre ++ (secUnit ++ (repUnits m ++ post))
          = (pre ++ secUnit) ++ (repUnits m ++ post) :=
        (List.append_assoc pre secUnit (repUnits m ++ post)).symm
      rw [hoff, hend, hassoc]
      rw [repWalk sink post m fuel ((num + 1) % 256) (pre ++ secUnit) (by omega)]
      rw [repNames]
      simp

/-- Every member of the `nestBuf` family extracts with return value 0. -/
theorem nest_ret_none (sink : Sink) (fn : Option String) (n fuel : Nat) :
    (pfsRun sink (nestBuf n) (fuel + 1)
      (.extract 0 ((nestBuf n).length) fn)).ret = none := by
  cases n with
  | zero =>
    exact extract_hdr_ret_none sink 0 _ fuel (pfsFooterBytes 0) fn
      (by rw [nestBuf_length])
  | succ n =>
    have hb : nestBuf (n + 1)
        = pfsHeaderBytes (72 + (nestBuf n).length)
          ++ (chainSec (nestBuf n).length
            ++ (nestBuf n ++ pfsFooterBytes (72 + (nestBuf n).length))) := by
      show pfsHeaderBytes _ ++ chainSec _ ++ nestBuf n ++ pfsFooterBytes _ = _
      simp [List.append_assoc]
    rw [nestBuf_length, hb]
    exact extract_hdr_ret_none sink _ _ fuel _ fn
      (by rw [nestBuf_length]; omega)


/-! ## Claim C3: version decoding -/

/-- **C3.** The version decoder processes the `(tag, value)` components left
to right: tag `'A'` (65) appends the uppercase hexadecimal of the value
followed by `'.'`; tag `'N'` (78) appends the decimal of the value followed
by `'.'`; tag `' '` (32) or 0 stops immediately with the remaining
components ignored and no diagnostic; any other tag records an
unknown-version-tag warning and skips that component while continuing; an
empty resulting string is replaced by the single-character placeholder
`"."`; the specification's examples `[('A',2),(' ',0),('N',10),('A',5)]`
and `[('A',2),('N',10),(0,0),('A',1)]` decode to `"2."` and `"2.10."`. -/
theorem C3_version_decoder :
    (decodeVersionAux [(65, 2), (32, 0), (78, 10), (65, 5)] = ("2.", [])) ∧
    (decodeVersionAux [(65, 2), (78, 10), (0, 0), (65, 1)] = ("2.10.", [])) ∧
    (∀ (v : Nat) (rest : List (Nat × Nat)),
      decodeVersionAux ((65, v) :: rest)
        = (natToHexUpper v ++ "." ++ (decodeVersionAux rest).1,
           (decodeVersionAux rest).2)) ∧
    (∀ (v : Nat) (rest : List (Nat × Nat)),
      decodeVersionAux ((78, v) :: rest)
        = (natToDec v ++ "." ++ (decodeVersionAux rest).1,
           (decodeVersionAux rest).2)) ∧
    (∀ (t v : Nat) (rest : List (Nat × Nat)), (t = 32 ∨ t = 0) →
      decodeVersionAux ((t, v) :: rest) = ("", [])) ∧
    (∀ (t v : Nat) (rest : List (Nat × Nat)),
      t ≠ 65 → t ≠ 78 → t ≠ 32 → t ≠ 0 →
      decodeVersionAux ((t, v) :: rest)
        = ((decodeVersionAux rest).1,
           Warning.UnknownVersionTag t v :: (decodeVersionAux rest).2)) ∧
    versionOrDot (decodeVersionAux [(32, 0), (32, 0), (32, 0), (32, 0)]).1
      = "." := by
  refine ⟨by decide, by decide, ?_, ?_, ?_, ?_, by decide⟩
  · intro v rest; simp [decodeVersionAux]
  · intro v rest; simp [decodeVersionAux]
  · rintro t v rest (rfl | rfl) <;> simp [decodeVersionAux]
  · intro t v rest h65 h78 h32 h0
    simp [decodeVersionAux, h65, h78, h32, h0]

/-- Witness for C3: the unknown-tag branch applied at tag 88 (`'X'`). -/
theorem C3_version_decoder_witness :
    decodeVersionAux [(88, 5)] = ("", [Warning.UnknownVersionTag 88 5]) := by
  have h := C3_version_decoder.2.2.2.2.2.1 88 5 []
    (by decide) (by decide) (by decide) (by decide)
  exact h.trans (by decide)

/-! ## Claim C4: too-small buffers -/

/-- **C4 counterexample.** The claim says every buffer with
`length < 32 + header.dataSize` fails with `TooSmall`.  `c4buf` (40 bytes,
declared data size 232, zeroed header magic) satisfies that premise but
fails with `BadHeaderMagic`: the source checks the header magic (line 165)
before the full-image size (line 177). -/
theorem C4_counterexample :
    40 < 32 + readU32 c4buf 12 ∧
    (pfs_extract sinkOk c4buf 40 none).ret
      = some FormatError.BadHeaderMagic := by decide

/-- **C4 amended.** A buffer shorter than `headerSize + footerSize = 32`
fails with `TooSmall` immediately; a buffer that passes the header magic
and version checks and has `length < 32 + header.dataSize` fails with
`TooSmall`; in both cases the result is exactly `errOut TooSmall`, so the
output sink receives zero calls.  (Buffers failing the earlier magic or
version checks fail with `BadHeaderMagic` / `UnsupportedVersion` instead,
also with zero sink calls.) -/
theorem C4_amended (sink : Sink) (buf : List Nat) (size : Nat)
    (filename : Option String) :
    (size < 32 → pfs_extract sink buf size filename
        = errOut FormatError.TooSmall) ∧
    (readU64 buf 0 = pfsHdrSignature → readU32 buf 8 = 1 →
      size < 32 + readU32 buf 12 →
      pfs_extract sink buf size filename = errOut FormatError.TooSmall) := by
  rw [pfs_extract_succ]
  constructor
  · intro h1; simp [pfsRun, h1]
  · intro h2 h3 h4
    by_cases h1 : size < 32
    · simp [pfsRun, h1]
    · simp [pfsRun, h1, h2, h3, h4]

/-- Witness for C4 amended: a 40-byte image with a good header declaring
`DataSize = 100` fails with `TooSmall` and no writes. -/
theorem C4_amended_witness :
    pfs_extract sinkOk c4okbuf 40 none = errOut FormatError.TooSmall :=
  (C4_amended sinkOk c4okbuf 40 none).2 (by decide) (by decide) (by decide)

/-! ## Claim C8: footer mismatches are non-fatal -/

/-- **C8.** Footer checks never fail extraction: whenever the four fatal
checks pass, `extract` returns 0 (so the walk ran to completion), a footer
magic differing from `"PFS.FTR."` merely records a footer-magic-mismatch
warning and a footer data size differing from the header data size merely
records a data-size-mismatch warning.  Concretely, `c8buf` (footer magic
`"PFS.XXX."`) extracts fully — its section file is emitted — with exactly
one footer-magic-mismatch warning. -/
theorem C8_footer_nonfatal :
    (∀ (sink : Sink) (buf : List Nat) (size : Nat) (filename : Option String),
      ¬ size < 32 → readU64 buf 0 = pfsHdrSignature → readU32 buf 8 = 1 →
      ¬ size < 32 + readU32 buf 12 →
      (pfs_extract sink buf size filename).ret = none ∧
      (readU64 buf (16 + readU32 buf 12 + 8) ≠ pfsFtrSignature →
        Warning.FooterMagicMismatch
          ∈ (pfs_extract sink buf size filename).warnings) ∧
      (readU32 buf (16 + readU32 buf 12) ≠ readU32 buf 12 →
        Warning.DataSizeMismatch
          ∈ (pfs_extract sink buf size filename).warnings)) ∧
    pfs_extract sinkOk c8buf 105 none
      = ⟨none, [("section_0_.data", [65])], [Warning.FooterMagicMismatch],
          [], []⟩ := by
  constructor
  · intro sink buf size filename h1 h2 h3 h4
    rw [pfs_extract_succ]
    refine ⟨?_, ?_, ?_⟩
    · exact extract_ret_none sink buf _ 0 size filename h1
        (by simpa using h2) (by simpa using h3) (by simpa using h4)
    · intro hm
      simp only [pfsRun, h1, if_false]
      simp only [Nat.zero_add, h2, ne_eq, not_true_eq_false, if_false, h3,
        h4, Nat.zero_add]
      cases filename <;>
        simp [hm, List.mem_append]
    · intro hm
      simp only [pfsRun, h1, if_false]
      simp only [Nat.zero_add, h2, ne_eq, not_true_eq_false, if_false, h3,
        h4, Nat.zero_add]
      cases filename <;>
        simp [hm, List.mem_append]
  · decide

/-- Witness for C8: the general part applied to `c8buf`. -/
theorem C8_footer_nonfatal_witness :
    (pfs_extract sinkOk c8buf 105 none).ret = none ∧
    Warning.FooterMagicMismatch
      ∈ (pfs_extract sinkOk c8buf 105 none).warnings := by
  have h := C8_footer_nonfatal.1 sinkOk c8buf 105 none
    (by decide) (by decide) (by decide) (by decide)
  exact ⟨h.1, h.2.1 (by decide)⟩

/-! ## More structural helpers -/

/-- A subsection-mode `pfs_extract` whose fatal checks pass writes exactly
one file: its target name with the sorted-and-concatenated chunks (the
subsection walk itself never writes). -/
theorem chunkExtract_writes (sink : Sink) (buf : List Nat)
    (fuel base size : Nat) (name : String)
    (h1 : ¬ size < 32) (h2 : readU64 buf base = pfsHdrSignature)
    (h3 : readU32 buf (base + 8) = 1)
    (h4 : ¬ size < 32 + readU32 buf (base + 12)) :
    (pfsRun sink buf (fuel + 1) (.extract base size (some name))).writes
      = [(name,
          ((sortChunks (pfsRun sink buf fuel
              (.walk true (base + 16 + readU32 buf (base + 12))
                (base + 16) 0)).chunks).map PFS_CHUNK.data).flatten)] := by
  simp only [pfsRun, h1, if_false, h2, ne_eq, not_true_eq_false, h3, h4,
    Option.isSome_some]
  simp [(chunk_walk_writes sink buf fuel _ _ _).1]


/-- A normal-mode `pfs_extract` whose fatal checks pass writes exactly what
its walk writes. -/
theorem normalExtract_writes (sink : Sink) (buf : List Nat)
    (fuel base size : Nat)
    (h1 : ¬ size < 32) (h2 : readU64 buf base = pfsHdrSignature)
    (h3 : readU32 buf (base + 8) = 1)
    (h4 : ¬ size < 32 + readU32 buf (base + 12)) :
    (pfsRun sink buf (fuel + 1) (.extract base size none)).writes
      = (pfsRun sink buf fuel
          (.walk false (base + 16 + readU32 buf (base + 12))
            (base + 16) 0)).writes := by
  simp only [pfsRun, h1, if_false, h2, ne_eq, not_true_eq_false, h3, h4,
    Option.isSome_none]

/-- Unfolding of one normal-mode walk iteration at a nested-container
section: the data block is emitted first, then the *subsection-mode*
recursive extract targeting `section_<num>_<version>payload` runs, then the
remaining blocks and sections. -/
theorem walk_step_nested (sink : Sink) (buf : List Nat)
    (fuel dataEnd off num : Nat)
    (hde : ¬ dataEnd ≤ off) (hds : (readSection buf off).dataSize ≠ 0)
    (hmg : readU64 buf (off + 72) = pfsHdrSignature) :
    pfsRun sink buf (fuel + 1) (.walk false dataEnd off num)
      = combineStep sink buf false off num
          (versionOrDot (decodeVersionAux (readSection buf off).comps).1)
          (decodeVersionAux (readSection buf off).comps).2
          (readSection buf off)
          (pfsRun sink buf fuel
            (.extract (off + 72) (readSection buf off).dataSize
              (some (sectionName num
                (versionOrDot (decodeVersionAux (readSection buf off).comps).1)
                "payload"))))
          (pfsRun sink buf fuel
            (.walk false dataEnd
              (off + 72 + (readSection buf off).dataSize
                + (readSection buf off).dataSigSize
                + (readSection buf off).metaSize
                + (readSection buf off).metaSigSize)
              ((num + 1) % 256))) := by
  simp only [pfsRun, hde, if_false, Bool.false_eq_true, hds, hmg,
    ne_eq, not_false_eq_true, and_self, if_true]

/-! ## Claim C2: chunk reassembly -/

/-- **C2 counterexample.** The claim asserts a *stable* sort: pairs with
equal `orderNum` keep their encounter order.  The source sorts with
`std::sort` (line 306), whose contract only promises *some* permutation
sorted by the comparator — for the encounter-order chunks
`[("AA", 0), ("BB", 0)]` the output `[("BB", 0), ("AA", 0)]` is an
admissible result of `std::sort`, and its concatenation differs from the
stable one. -/
theorem C2_counterexample :
    stdSortMayProduce [⟨[65, 65], 0⟩, ⟨[66, 66], 0⟩]
      [⟨[66, 66], 0⟩, ⟨[65, 65], 0⟩] ∧
    ([(⟨[66, 66], 0⟩ : PFS_CHUNK), ⟨[65, 65], 0⟩].map PFS_CHUNK.data).flatten
      ≠ ([(⟨[65, 65], 0⟩ : PFS_CHUNK), ⟨[66, 66], 0⟩].map
          PFS_CHUNK.data).flatten := by
  exact ⟨⟨List.Perm.swap _ _ _, by decide⟩, by decide⟩

/-- **C2 amended.** For every chunk-collection pass whose fatal checks pass
(the walk itself cannot fail), the collected `(orderNumber, bytes)` pairs
are sorted by `orderNumber` ascending — the output is a permutation of the
collected chunks that is pairwise ordered by `orderNum`, with the relative
order of equal order numbers unspecified by the code (`std::sort` is not
stable; well-formed input never produces ties) — the sorted byte sequences
are concatenated, and the result is emitted exactly once under the
caller-supplied target name; the specification's example
`[(2,"BB"), (0,"AA"), (1,"CC")]` reassembles to `"AACCBB"`. -/
theorem C2_amended :
    (∀ (sink : Sink) (buf : List Nat) (size : Nat) (name : String),
      ¬ size < 32 → readU64 buf 0 = pfsHdrSignature → readU32 buf 8 = 1 →
      ¬ size < 32 + readU32 buf 12 →
      (pfs_extract sink buf size (some name)).writes
        = [(name,
            ((sortChunks (pfsRun sink buf (totalFuel buf - 1)
                (.walk true (16 + readU32 buf 12) 16 0)).chunks).map
              PFS_CHUNK.data).flatten)]) ∧
    (∀ l : List PFS_CHUNK, (sortChunks l).Perm l ∧
      (sortChunks l).Pairwise fun a b => a.orderNum ≤ b.orderNum) ∧
    ((sortChunks exChunks).map PFS_CHUNK.data).flatten
      = [65, 65, 67, 67, 66, 66] := by
  refine ⟨?_, fun l => ⟨sortChunks_perm l, sortChunks_sorted l⟩, by decide⟩
  intro sink buf size name h1 h2 h3 h4
  rw [pfs_extract_succ]
  have h := chunkExtract_writes sink buf (totalFuel buf - 1) 0 size name h1
    (by simpa using h2) (by simpa using h3) (by simpa using h4)
  simpa using h

/-- Witness for C2 amended: the single-chunk container `innerBuf` in
subsection mode emits exactly one file, the reassembled payload. -/
theorem C2_amended_witness :
    (pfs_extract sinkOk innerBuf 690 (some "inner")).writes
      = [("inner", [65, 66])] := by
  have h := C2_amended.1 sinkOk innerBuf 690 "inner"
    (by decide) (by decide) (by decide) (by decide)
  exact h.trans (by decide)

/-! ## Claim C1: no truncation check -/

/-- **C1 counterexample.** `c1buf`'s section 1 (at offset 89) declares
`DataSize = 100`, so its data block `[161, 261)` extends past the
data-region end `16 + 180 = 196`; the claim demands `Truncated` with no
emission for that section.  Instead the extractor returns 0 and emits both
sections — including the offending one. -/
theorem C1_counterexample :
    readU32 c1buf (89 + 40) = 100 ∧ 16 + 180 < 89 + 72 + 100 ∧
    (pfs_extract sinkOk c1buf 400 none).ret = none ∧
    (pfs_extract sinkOk c1buf 400 none).writes.map Prod.fst
      = ["section_0_.data", "section_1_.data"] := by decide

/-- **C1 amended.** The walk performs no truncation check at all:
`FormatError.Truncated` is never signalled by any activation, and a section
whose declared block sizes extend past `dataEnd` is still processed — its
data block is emitted in full, with the bytes drawn from beyond the data
region (here: the padding, the footer, and 49 bytes of trailing junk), the
walk then stops only because the advanced offset has passed `dataEnd`, the
pass returns 0, and files emitted by earlier iterations are kept. -/
theorem C1_amended :
    (∀ (sink : Sink) (buf : List Nat) (fuel : Nat) (c : PfsCall),
      (pfsRun sink buf fuel c).ret ≠ some FormatError.Truncated) ∧
    pfs_extract sinkOk c1buf 400 none
      = ⟨none,
          [("section_0_.data", [0xAA]),
           ("section_1_.data",
            List.replicate 35 0xBB ++ pfsFooterBytes 180
              ++ List.replicate 49 0xEE)],
          [], [], []⟩ := by
  constructor
  · intro sink buf fuel c h
    rcases pfsRun_ret_cases sink buf fuel c with h0 | h0 | h0 | h0 <;>
      rw [h0] at h <;> simp at h
  · decide

/-- Witness for C1 amended: the never-`Truncated` part applied at the
counterexample input. -/
theorem C1_amended_witness :
    (pfsRun sinkOk c1buf (totalFuel c1buf) (.extract 0 400 none)).ret
      ≠ some FormatError.Truncated :=
  C1_amended.1 sinkOk c1buf (totalFuel c1buf) (.extract 0 400 none)

/-! ## Claim C5: the recursion's mode -/

/-- **C5 counterexample.** `outerBuf` holds one normal section whose data
block is the nested container `innerBuf`.  The claim says the nested parse
runs in Normal mode and therefore emits the nested container's own
per-section files.  Instead the nested parse runs in subsection mode
(the source passes the non-NULL `filename` at line 273): the whole run
produces exactly two writes — the raw data block and the single
chunk-reassembled `section_0_.payload` — and no per-section file of the
nested container. -/
theorem C5_counterexample :
    (pfs_extract sinkOk outerBuf 794 none).writes
      = [("section_0_.data", innerBuf), ("section_0_.payload", [65, 66])] := by
  have hT := totalFuel_big outerBuf
  rw [pfs_extract_succ]
  rw [normalExtract_writes sinkOk outerBuf (totalFuel outerBuf - 1) 0 794
    (by omega) (by decide) (by decide) (by decide)]
  rw [show (0 + 16 + readU32 outerBuf (0 + 12) : Nat) = 778 from by decide]
  rw [show ((0 : Nat) + 16) = 16 from rfl]
  rw [show totalFuel outerBuf - 1 = (totalFuel outerBuf - 2) + 1 from by omega]
  rw [walk_step_nested sinkOk outerBuf (totalFuel outerBuf - 2) 778 16 0
    (by omega) (by decide) (by decide)]
  rw [show (readSection outerBuf 16).dataSize = 690 from by decide,
    show (readSection outerBuf 16).dataSigSize = 0 from by decide,
    show (readSection outerBuf 16).metaSize = 0 from by decide,
    show (readSection outerBuf 16).metaSigSize = 0 from by decide,
    show (readSection outerBuf 16).comps
      = [(0, 0), (0, 0), (0, 0), (0, 0)] from by decide]
  rw [show versionOrDot (decodeVersionAux
    [((0:Nat), (0:Nat)), (0, 0), (0, 0), (0, 0)]).1 = "." from by decide]
  rw [show totalFuel outerBuf - 2 = (totalFuel outerBuf - 3) + 1 from by omega]
  rw [show sectionName 0 "." "payload" = "section_0_.payload" from by decide]
  simp only [combineStep, Bool.false_eq_true, if_false]
  rw [show (readSection outerBuf 16).dataSize = 690 from by decide,
    show (readSection outerBuf 16).dataSigSize = 0 from by decide,
    show (readSection outerBuf 16).metaSize = 0 from by decide,
    show (readSection outerBuf 16).metaSigSize = 0 from by decide]
  rw [chunkExtract_writes sinkOk outerBuf (totalFuel outerBuf - 3) (16 + 72)
    690 "section_0_.payload" (by omega) (by decide) (by decide) (by decide)]
  rw [show (16 + 72 + 16 + readU32 outerBuf (16 + 72 + 12) : Nat) = 762
    from by decide]
  rw [show (16 + 72 + 16 : Nat) = 104 from rfl]
  rw [show (pfsRun sinkOk outerBuf (totalFuel outerBuf - 3)
      (.walk true 762 104 0)).chunks = [⟨[65, 66], 0⟩] from by decide]
  rw [show ((sortChunks [(⟨[65, 66], 0⟩ : PFS_CHUNK)]).map
      PFS_CHUNK.data).flatten = [65, 66] from by decide]
  rw [walk_exit sinkOk outerBuf _ false 778 (16 + 72 + 690 + 0 + 0 + 0) _
    (by norm_num)]
  rw [show readBytes outerBuf (16 + 72) 690 = innerBuf from by decide]
  rw [show sectionName 0 "." "data" = "section_0_.data" from by decide]
  simp [emptyOut]

/-- **C5 amended.** Whenever a normal-mode section's non-empty data block
begins with the container header magic, the recursive parse runs in
*subsection (chunk-collect)* mode targeting
`section_<index>_<version>payload` — so chunk collection is entered for
*every* nested-container recursion, not only a specially determined one; a
subsection-mode walk never writes and never recurses further; the
top-level invocation (`filename = NULL` in `main`) is the only normal-mode
activation not reached through a walk. -/
theorem C5_amended :
    (∀ (sink : Sink) (buf : List Nat) (fuel dataEnd off num : Nat),
      ¬ dataEnd ≤ off → (readSection buf off).dataSize ≠ 0 →
      readU64 buf (off + 72) = pfsHdrSignature →
      pfsRun sink buf (fuel + 1) (.walk false dataEnd off num)
        = combineStep sink buf false off num
            (versionOrDot (decodeVersionAux (readSection buf off).comps).1)
            (decodeVersionAux (readSection buf off).comps).2
            (readSection buf off)
            (pfsRun sink buf fuel
              (.extract (off + 72) (readSection buf off).dataSize
                (some (sectionName num
                  (versionOrDot
                    (decodeVersionAux (readSection buf off).comps).1)
                  "payload"))))
            (pfsRun sink buf fuel
              (.walk false dataEnd
                (off + 72 + (readSection buf off).dataSize
                  + (readSection buf off).dataSigSize
                  + (readSection buf off).metaSize
                  + (readSection buf off).metaSigSize)
                ((num + 1) % 256)))) ∧
    (∀ (sink : Sink) (buf : List Nat) (fuel dataEnd off num : Nat),
      (pfsRun sink buf fuel (.walk true dataEnd off num)).writes = []) ∧
    (∀ (sink : Sink) (buf : List Nat),
      mainExtract sink buf
        = pfsRun sink buf (totalFuel buf) (.extract 0 buf.length none)) := by
  refine ⟨walk_step_nested, ?_, fun _ _ => rfl⟩
  intro sink buf fuel dataEnd off num
  exact (chunk_walk_writes sink buf fuel dataEnd off num).1

/-- Witness for C5 amended: the step equation applied at `outerBuf`'s first
(and only) section — the nested parse is invoked in subsection mode with
target `section_0_.payload`. -/
theorem C5_amended_witness :
    pfsRun sinkOk outerBuf 5001 (.walk false 778 16 0)
      = combineStep sinkOk outerBuf false 16 0
          (versionOrDot (decodeVersionAux (readSection outerBuf 16).comps).1)
          (decodeVersionAux (readSection outerBuf 16).comps).2
          (readSection outerBuf 16)
          (pfsRun sinkOk outerBuf 5000
            (.extract (16 + 72) (readSection outerBuf 16).dataSize
              (some (sectionName 0
                (versionOrDot (decodeVersionAux (readSection outerBuf 16).comps).1)
                "payload"))))
          (pfsRun sinkOk outerBuf 5000
            (.walk false 778
              (16 + 72 + (readSection outerBuf 16).dataSize
                + (readSection outerBuf 16).dataSigSize
                + (readSection outerBuf 16).metaSize
                + (readSection outerBuf 16).metaSigSize)
              ((0 + 1) % 256))) :=
  C5_amended.1 sinkOk outerBuf 5000 778 16 0
    (by omega) (by decide) (by decide)

/-! ## Claim C6: write-before-recurse -/

/-- **C6.** For a normal-mode section whose non-empty data block begins
with `"PFS.HDR."`: the very first write of that iteration is the raw data
block under `section_<index>_<version>data` — unconditionally, before the
recursive parse contributes anything, so the raw bytes survive a failed
nested parse — and when the nested parse's own checks pass, the first two
writes are exactly the raw data file followed by the
`section_<index>_<version>payload` file produced by the recursive parse,
in that order. -/
theorem C6_write_before_recurse (sink : Sink) (buf : List Nat)
    (fuel dataEnd off num : Nat)
    (hde : ¬ dataEnd ≤ off) (hds : (readSection buf off).dataSize ≠ 0)
    (hmg : readU64 buf (off + 72) = pfsHdrSignature) :
    ((pfsRun sink buf (fuel + 2) (.walk false dataEnd off num)).writes.head?
        = some (sectionName num
            (versionOrDot (decodeVersionAux (readSection buf off).comps).1)
            "data",
          readBytes buf (off + 72) (readSection buf off).dataSize)) ∧
    (readU32 buf (off + 72 + 8) = 1 →
      ¬ (readSection buf off).dataSize < 32 + readU32 buf (off + 72 + 12) →
      ∃ payload,
        (pfsRun sink buf (fuel + 2) (.walk false dataEnd off num)).writes.take 2
          = [(sectionName num
                (versionOrDot (decodeVersionAux (readSection buf off).comps).1)
                "data",
              readBytes buf (off + 72) (readSection buf off).dataSize),
             (sectionName num
                (versionOrDot (decodeVersionAux (readSection buf off).comps).1)
                "payload",
              payload)]) := by
  rw [walk_step_nested sink buf (fuel + 1) dataEnd off num hde hds hmg]
  constructor
  · simp [combineStep, hds]
  · intro h3 h4
    have h1 : ¬ (readSection buf off).dataSize < 32 := by omega
    have hc := chunkExtract_writes sink buf fuel (off + 72)
      (readSection buf off).dataSize
      (sectionName num
        (versionOrDot (decodeVersionAux (readSection buf off).comps).1)
        "payload") h1 hmg h3 h4
    refine ⟨((sortChunks (pfsRun sink buf fuel
        (.walk true (off + 72 + 16 + readU32 buf (off + 72 + 12))
          (off + 72 + 16) 0)).chunks).map PFS_CHUNK.data).flatten, ?_⟩
    simp only [combineStep, Bool.false_eq_true, if_false, hds, ne_eq,
      not_false_eq_true, if_true, hc]
    simp

/-! ## Claim C7: recursion depth -/

/-- **C7 counterexample.** `nestBuf 33` nests 34 containers (each level's
single section data block is the next container), far beyond the
specification's example bound of 32, yet `extract` succeeds: no `TooDeep`
failure exists in the code. -/
theorem C7_counterexample :
    (nestBuf 33).length = 32 + 104 * 33 ∧
    (pfs_extract sinkOk (nestBuf 33) ((nestBuf 33).length) none).ret
      = none := by
  refine ⟨nestBuf_length 33, ?_⟩
  rw [pfs_extract_succ]
  exact nest_ret_none sinkOk none 33 _

/-- **C7 amended.** There is *no* recursion-depth limit: no activation ever
returns `FormatError.TooDeep`, and every member of the arbitrarily deeply
nested `nestBuf` family extracts successfully.  (Recursion nevertheless
cannot overflow on this code path: a nested parse runs in subsection mode,
which never recurses further, so the dynamic call depth never exceeds
two.) -/
theorem C7_amended :
    (∀ (sink : Sink) (buf : List Nat) (fuel : Nat) (c : PfsCall),
      (pfsRun sink buf fuel c).ret ≠ some FormatError.TooDeep) ∧
    (∀ n : Nat,
      (pfs_extract sinkOk (nestBuf n) ((nestBuf n).length) none).ret
        = none) := by
  constructor
  · intro sink buf fuel c h
    rcases pfsRun_ret_cases sink buf fuel c with h0 | h0 | h0 | h0 <;>
      rw [h0] at h <;> simp at h
  · intro n
    rw [pfs_extract_succ]
    exact nest_ret_none sinkOk none n _

/-- Witness for C7 amended: both parts at `nestBuf 33`. -/
theorem C7_amended_witness :
    (pfsRun sinkOk (nestBuf 33) (totalFuel (nestBuf 33))
        (.extract 0 ((nestBuf 33).length) none)).ret
      ≠ some FormatError.TooDeep :=
  C7_amended.1 sinkOk (nestBuf 33) (totalFuel (nestBuf 33))
    (.extract 0 ((nestBuf 33).length) none)

/-! ## Claim C9: sink failures never stop the walk -/

/-- Everything except the failed-write report list is independent of the
output sink: the source discards `write_file`'s status at every call
site. -/
theorem pfsRun_sink_independent (s1 s2 : Sink) (buf : List Nat) :
    ∀ (fuel : Nat) (c : PfsCall),
      (pfsRun s1 buf fuel c).ret = (pfsRun s2 buf fuel c).ret ∧
      (pfsRun s1 buf fuel c).writes = (pfsRun s2 buf fuel c).writes ∧
      (pfsRun s1 buf fuel c).warnings = (pfsRun s2 buf fuel c).warnings ∧
      (pfsRun s1 buf fuel c).chunks = (pfsRun s2 buf fuel c).chunks
  | 0, _ => ⟨rfl, rfl, rfl, rfl⟩
  | fuel + 1, .extract base size filename => by
    obtain ⟨hr, hw, hwar, hc⟩ := pfsRun_sink_independent s1 s2 buf fuel
      (.walk filename.isSome (base + 16 + readU32 buf (base + 12))
        (base + 16) 0)
    simp only [pfsRun]
    split
    · exact ⟨rfl, rfl, rfl, rfl⟩
    split
    · exact ⟨rfl, rfl, rfl, rfl⟩
    split
    · exact ⟨rfl, rfl, rfl, rfl⟩
    split
    · exact ⟨rfl, rfl, rfl, rfl⟩
    cases filename with
    | none => exact ⟨rfl, hw, by rw [hwar], rfl⟩
    | some name => exact ⟨rfl, by rw [hw, hc], by rw [hwar], rfl⟩
  | fuel + 1, .walk isSub dataEnd off num => by
    obtain ⟨hr1, hw1, hwar1, hc1⟩ := pfsRun_sink_independent s1 s2 buf fuel
      (.extract (off + 72) (readSection buf off).dataSize
        (some (sectionName num
          (versionOrDot (decodeVersionAux (readSection buf off).comps).1)
          "payload")))
    obtain ⟨hr2, hw2, hwar2, hc2⟩ := pfsRun_sink_independent s1 s2 buf fuel
      (.walk isSub dataEnd
        (off + 72 + (readSection buf off).dataSize
          + (readSection buf off).dataSigSize
          + (readSection buf off).metaSize
          + (readSection buf off).metaSigSize)
        ((num + 1) % 256))
    simp only [pfsRun]
    split
    · exact ⟨rfl, rfl, rfl, rfl⟩
    cases isSub with
    | true =>
      refine ⟨?_, ?_, ?_, ?_⟩ <;> simp [combineStep, hw2, hwar2, hc2]
    | false =>
      refine ⟨?_, ?_, ?_, ?_⟩ <;>
        simp [combineStep, apply_ite PfsOut.writes,
          apply_ite PfsOut.warnings, apply_ite PfsOut.chunks,
          hw1, hw2, hwar1, hwar2, hc1, hc2]

/-- **C9.** The result of `pfs_extract` — its return value, the sequence of
attempted writes, the warnings and the collected chunks — is identical for
every output sink: a failed write is only reported (it lands in the
failed-write list) and never aborts or alters the surrounding walk.
Concretely, on `c8buf` with the sink on which every write fails, the same
single write is still attempted and the failure is reported, while the
all-succeeding sink reports nothing. -/
theorem C9_sink_failures_harmless :
    (∀ (s1 s2 : Sink) (buf : List Nat) (fuel : Nat) (c : PfsCall),
      (pfsRun s1 buf fuel c).ret = (pfsRun s2 buf fuel c).ret ∧
      (pfsRun s1 buf fuel c).writes = (pfsRun s2 buf fuel c).writes ∧
      (pfsRun s1 buf fuel c).warnings = (pfsRun s2 buf fuel c).warnings ∧
      (pfsRun s1 buf fuel c).chunks = (pfsRun s2 buf fuel c).chunks) ∧
    ((pfs_extract sinkFail c8buf 105 none).writes
        = (pfs_extract sinkOk c8buf 105 none).writes ∧
      (pfs_extract sinkFail c8buf 105 none).ret
        = (pfs_extract sinkOk c8buf 105 none).ret ∧
      (pfs_extract sinkFail c8buf 105 none).ioErrors = ["section_0_.data"] ∧
      (pfs_extract sinkOk c8buf 105 none).ioErrors = []) :=
  ⟨fun s1 s2 buf => pfsRun_sink_independent s1 s2 buf, by decide⟩

/-! ## Claim C10: the section counter is 8-bit -/

/-- **C10.** The per-pass section index in emitted filenames is the
source's `uint8_t sectionNum`, i.e. a counter advanced modulo 256: in a
single pass over 257 minimal sections the emitted data-file names are
exactly `repNames 0 257`, whose 257th entry (index 256) is again
`section_0_.data` — the same name as the first section's file, so the
257th section's output collides with (and, on disk, overwrites) the
first's. -/
theorem C10_section_index_wraps :
    ((pfs_extract sinkOk (repBuf 257) ((repBuf 257).length) none).writes.map
        Prod.fst = repNames 0 257) ∧
    (repNames 0 257).length = 257 ∧
    (repNames 0 257).getD 0 "" = "section_0_.data" ∧
    (repNames 0 257).getD 256 "" = "section_0_.data" := by
  refine ⟨?_, by decide, by decide, by decide⟩
  have hrep : repBuf 257
      = pfsHeaderBytes 18761 ++ (repUnits 257 ++ pfsFooterBytes 18761) := by
    rw [repBuf]
    norm_num [List.append_assoc]
  have hlen : (repBuf 257).length = 18793 := by
    rw [repBuf_length]
  have h2 : readU64 (repBuf 257) 0 = pfsHdrSignature := by
    rw [hrep]; exact readU64_pfsHeader _ _
  have h3 : readU32 (repBuf 257) 8 = 1 := by
    rw [hrep]; exact readU32_pfsHeader8 _ _
  have h4 : readU32 (repBuf 257) 12 = 18761 := by
    rw [hrep, readU32_pfsHeader12]
  have hfuel : 257 ≤ totalFuel (repBuf 257) - 1 := by
    rw [totalFuel, hlen]; norm_num
  have hw := repWalk sinkOk (pfsFooterBytes 18761) 257
    (totalFuel (repBuf 257) - 1) 0 (pfsHeaderBytes 18761) hfuel
  rw [pfsHeaderBytes_length, ← hrep] at hw
  norm_num at hw
  rw [pfs_extract_succ]
  rw [normalExtract_writes sinkOk (repBuf 257) (totalFuel (repBuf 257) - 1) 0
    ((repBuf 257).length) (by rw [hlen]; omega) h2 (by simpa using h3)
    (by simp only [Nat.zero_add, h4]; omega)]
  simp only [Nat.zero_add, h4]
  norm_num
  rw [hw]
  simp [List.map_map, Function.comp_def]

/-- Witness for C6: applied at `outerBuf`'s nested-container section. -/
theorem C6_write_before_recurse_witness :
    ((pfsRun sinkOk outerBuf 5002 (.walk false 778 16 0)).writes.head?
        = some (sectionName 0
            (versionOrDot (decodeVersionAux (readSection outerBuf 16).comps).1)
            "data",
          readBytes outerBuf (16 + 72) (readSection outerBuf 16).dataSize)) ∧
    ∃ payload,
      (pfsRun sinkOk outerBuf 5002 (.walk false 778 16 0)).writes.take 2
        = [(sectionName 0
              (versionOrDot (decodeVersionAux (readSection outerBuf 16).comps).1)
              "data",
            readBytes outerBuf (16 + 72) (readSection outerBuf 16).dataSize),
           (sectionName 0
              (versionOrDot (decodeVersionAux (readSection outerBuf 16).comps).1)
              "payload",
            payload)] := by
  have h := C6_write_before_recurse sinkOk outerBuf 5000 778 16 0
    (by decide) (by decide) (by decide)
  exact ⟨h.1, h.2 (by decide) (by decide)⟩

end PFS
